import Mathlib

/-!
Shallow embedding of `scripts/build_rfm.py` (customer-segmentation RFM pipeline).

A pandas `DataFrame` is modelled as a `Table`: a list of column names plus a
list of rows, each row a list of cells.  A cell is a string, an exact rational
number (pandas numerics are modelled in exact arithmetic, so there are no
infinities or NaN payloads; pandas missing values are `Cell.null`), an
already-parsed date (a day number, since the pipeline only ever uses dates at
whole-day granularity: `max`, `+ Timedelta(days=1)`, and `.days`), or null.

`clean_transactions` and `build_rfm` are translated statement by statement from
the source.  The pandas library operations they call are modelled as follows:
  * `df.columns = [c.strip() ...]`  — an in-place update of the argument's
    column names (`py_strip` models Python `str.strip`); the embedding makes
    the mutation explicit by returning the final state of the input table.
  * `df.rename(columns=...)`       — a fresh table with mapped column names.
  * `df.dropna(subset=[c])`        — filter out rows whose cell at `c` is null.
  * `pd.to_datetime(errors="coerce", dayfirst=True)` — `parseDateCell`: a date
    cell is already parsed; a string cell is parsed day-first on a civil
    calendar; anything unparseable coerces to null (and is then dropped).
    (Numeric epoch interpretation of number cells is not modelled; no claim
    exercises it.)
  * `.astype(str)`                 — `cellToString` (pandas renders missing
    values as the string "nan").
  * `.str.startswith("C")`         — `py_startswith`, character-level prefix
    test, the semantics of Python `str.startswith`.
  * `.astype(int)`                 — `cellToInt`, truncation toward zero for
    numerics, digit-string conversion for strings.
  * `groupby("CustomerID").agg(...)` — per distinct customer id, aggregate the
    rows of that group; `nunique` is the number of distinct values.
  * `.replace([inf,-inf], nan).dropna()` — the identity here: in exact rational
    arithmetic no aggregated measure can be infinite or NaN.

Rows are processed independently by every cleaning step, so the column-wise
pandas filters are equivalently expressed row by row (`cleanRow`).
-/

/-- A cell of a pandas DataFrame. -/
inductive Cell where
  | str (s : String)
  | num (q : ℚ)
  | date (d : ℤ)
  | null
deriving DecidableEq, Repr

/-- A pandas DataFrame: named columns and rows of cells. -/
structure Table where
  cols : List String
  rows : List (List Cell)
deriving DecidableEq, Repr

/-- The `ValueError` raised on a missing schema: it carries the missing
required columns and the columns that were found. -/
structure SchemaError where
  missing : List String
  found : List String
deriving DecidableEq, Repr

/-- A row of the cleaned table, holding the five canonical fields the pipeline
uses downstream plus the derived `TotalPrice`. -/
structure CleanedRow where
  invoiceNo : String
  invoiceDate : ℤ
  customerID : ℤ
  quantity : ℚ
  unitPrice : ℚ
  totalPrice : ℚ
deriving DecidableEq, Repr

/-- A row of the RFM output table. -/
structure RFMRow where
  customerID : ℤ
  recency : ℤ
  frequency : ℕ
  monetary : ℚ
deriving DecidableEq, Repr

instance instDecEqExcept {ε α : Type} [DecidableEq ε] [DecidableEq α] :
    DecidableEq (Except ε α)
  | Except.ok a, Except.ok b =>
    if h : a = b then Decidable.isTrue (by rw [h])
    else Decidable.isFalse (by intro hh; cases hh; exact h rfl)
  | Except.ok _, Except.error _ => Decidable.isFalse (by intro h; cases h)
  | Except.error _, Except.ok _ => Decidable.isFalse (by intro h; cases h)
  | Except.error e, Except.error f =>
    if h : e = f then Decidable.isTrue (by rw [h])
    else Decidable.isFalse (by intro hh; cases hh; exact h rfl)

/-! ### Python string primitives, modelled on the character list -/

/-- Python `str.strip()`: remove whitespace from both ends. -/
def py_strip (s : String) : String :=
  ⟨((s.data.dropWhile Char.isWhitespace).reverse.dropWhile Char.isWhitespace).reverse⟩

/-- Split a character list on a separator character (every separator occurrence
delimits a chunk, as Python `str.split(sep)` does). -/
def splitChar (sep : Char) : List Char → List (List Char)
  | [] => [[]]
  | c :: rest =>
    let r := splitChar sep rest
    if c = sep then [] :: r
    else
      match r with
      | [] => [[c]]
      | g :: gs => (c :: g) :: gs

/-- Parse a nonempty all-digit character list as a natural number. -/
def digitsToNat (l : List Char) : Option ℕ :=
  if l ≠ [] ∧ l.all (·.isDigit) then
    some (l.foldl (fun n c => n * 10 + (c.toNat - 48)) 0)
  else none

/-! ### Calendar model for `pd.to_datetime(..., dayfirst=True)` -/

/-- Gregorian leap year. -/
def isLeap (y : ℕ) : Bool :=
  (y % 4 == 0 && y % 100 != 0) || (y % 400 == 0)

/-- Days in a month of the civil calendar. -/
def daysInMonth (y m : ℕ) : ℕ :=
  if m = 2 then (if isLeap y then 29 else 28)
  else if m = 4 ∨ m = 6 ∨ m = 9 ∨ m = 11 then 30
  else 31

/-- Day number of a civil date (days since 1970-01-01, Hinnant's algorithm);
only applied to validated dates with year ≥ 1. -/
def daysFromCivil (y m d : ℤ) : ℤ :=
  let y' := if m ≤ 2 then y - 1 else y
  let era := (if 0 ≤ y' then y' else y' - 399) / 400
  let yoe := y' - era * 400
  let doy := (153 * (if 2 < m then m - 3 else m + 9) + 2) / 5 + d - 1
  let doe := yoe * 365 + yoe / 4 - yoe / 100 + doy
  era * 146097 + doe - 719468

/-- Validate a (year, month, day) triple and give its day number. -/
def mkDate (y m d : ℕ) : Option ℤ :=
  if 1 ≤ y ∧ 1 ≤ m ∧ m ≤ 12 ∧ 1 ≤ d ∧ d ≤ daysInMonth y m then
    some (daysFromCivil (y : ℤ) (m : ℤ) (d : ℤ))
  else none

/-- Day-first parse of a date string, modelling
`pd.to_datetime(s, dayfirst=True)` at day granularity: an optional time-of-day
suffix after a space is irrelevant at this granularity and ignored; the date
part is either `D/M/YYYY` (day first) or ISO `YYYY-M-D`. -/
def parseDateStr (s : String) : Option ℤ :=
  let datePart := (splitChar ' ' (py_strip s).data).headD []
  let parts := if datePart.contains '/' then splitChar '/' datePart
               else splitChar '-' datePart
  match parts with
  | [a, b, c] =>
    if a.length = 4 then
      match digitsToNat a, digitsToNat b, digitsToNat c with
      | some y, some m, some d => mkDate y m d
      | _, _, _ => none
    else
      match digitsToNat a, digitsToNat b, digitsToNat c with
      | some d, some m, some y => mkDate y m d
      | _, _, _ => none
  | _ => none

/-- `pd.to_datetime(cell, errors="coerce", dayfirst=True)`, with `none` for the
null (`NaT`) outcome of coercion. -/
def parseDateCell : Cell → Option ℤ
  | Cell.date d => some d
  | Cell.str s => parseDateStr s
  | _ => none

/-! ### Cell coercions -/

/-- Python `str.startswith`: character-level prefix test. -/
def py_startswith (s pre : String) : Bool :=
  pre.data.isPrefixOf s.data

/-- `.astype(str)` on one cell.  A whole-number rational column renders without
a decimal point; pandas renders a missing value as `"nan"`. -/
def cellToString : Cell → String
  | Cell.str s => s
  | Cell.num q => if q.den = 1 then toString q.num else toString q
  | Cell.date d => toString d
  | Cell.null => "nan"

/-- Numeric view of a cell (`NaN` compares false against `0`, so a null never
passes a `> 0` filter; non-numeric cells likewise fail it). -/
def cellNum : Cell → Option ℚ
  | Cell.num q => some q
  | _ => none

/-- Truncation toward zero, the semantics of a float-to-int cast. -/
def ratTrunc (q : ℚ) : ℤ := q.num / (q.den : ℤ)

/-- `.astype(int)` on one cell (the source assumes customer ids coerce
cleanly once non-null; unsupported cells give `none`). -/
def cellToInt : Cell → Option ℤ
  | Cell.num q => some (ratTrunc q)
  | Cell.str s => s.toInt?
  | _ => none

/-- Look a cell up by column name (first match, as with unique pandas column
labels; a missing column reads as null). -/
def getCell (cols : List String) (name : String) (row : List Cell) : Cell :=
  match cols.indexOf? name with
  | some i => row.getD i Cell.null
  | none => Cell.null

/-! ### `clean_transactions` -/

/-- The static synonym lookup table `rename_map` of the source. -/
def rename_map : String → Option String
  | "Invoice" => some "InvoiceNo"
  | "InvoiceNo" => some "InvoiceNo"
  | "Customer ID" => some "CustomerID"
  | "CustomerID" => some "CustomerID"
  | "Price" => some "UnitPrice"
  | "UnitPrice" => some "UnitPrice"
  | "InvoiceDate" => some "InvoiceDate"
  | "Quantity" => some "Quantity"
  | _ => none

/-- `required_cols` of the source. -/
def required_cols : List String :=
  ["InvoiceNo", "InvoiceDate", "CustomerID", "Quantity", "UnitPrice"]

/-- The canonical name a raw column name normalizes to: strip surrounding
whitespace, then apply the synonym map where it applies. -/
def canonName (c : String) : String :=
  (rename_map (py_strip c)).getD (py_strip c)

/-- The row pipeline of `clean_transactions`, one row at a time (each step of
the source filters or maps rows independently):
dropna on CustomerID; date parse + dropna; InvoiceNo `astype(str)` and
cancellation filter; positive quantity and price; CustomerID `astype(int)`;
derived TotalPrice. -/
def cleanRow (cols : List String) (row : List Cell) : Option CleanedRow :=
  if getCell cols "CustomerID" row = Cell.null then none
  else
    match parseDateCell (getCell cols "InvoiceDate" row) with
    | none => none
    | some d =>
      if py_startswith (cellToString (getCell cols "InvoiceNo" row)) "C" then none
      else
        match cellNum (getCell cols "Quantity" row),
              cellNum (getCell cols "UnitPrice" row) with
        | some q, some p =>
          if 0 < q ∧ 0 < p then
            match cellToInt (getCell cols "CustomerID" row) with
            | some c =>
              some ⟨cellToString (getCell cols "InvoiceNo" row), d, c, q, p, q * p⟩
            | none => none
          else none
        | _, _ => none

/-- Schema check and row processing over already-normalized column names. -/
def cleanCore (cols : List String) (rows : List (List Cell)) :
    Except SchemaError (List CleanedRow) :=
  if (required_cols.filter (fun c => !cols.contains c)).isEmpty then
    Except.ok (rows.filterMap (cleanRow cols))
  else
    Except.error ⟨required_cols.filter (fun c => !cols.contains c), cols⟩

/-- `clean_transactions`, with its effect on the argument made explicit: the
first statement `df.columns = [c.strip() for c in df.columns]` updates the
caller's table in place, so the result pairs the cleaning outcome with the
final state of the input table.  `df = df.rename(...)` rebinds the local name
to a fresh table, so no later statement touches the input. -/
def clean_transactions_state (t : Table) :
    Except SchemaError (List CleanedRow) × Table :=
  let stripped : Table := ⟨t.cols.map py_strip, t.rows⟩
  let renamed := stripped.cols.map (fun c => (rename_map c).getD c)
  (cleanCore renamed stripped.rows, stripped)

/-- The value returned by `clean_transactions`. -/
def clean_transactions (t : Table) : Except SchemaError (List CleanedRow) :=
  (clean_transactions_state t).1

/-- The required canonical columns still missing after normalization. -/
def missingOf (t : Table) : List String :=
  required_cols.filter (fun c => !(t.cols.map canonName).contains c)

/-! ### `build_rfm` -/

/-- Maximum of a list of day numbers (meaningful on nonempty lists, where it is
the pandas `max` of the column). -/
def listMaxD : List ℤ → ℤ
  | [] => 0
  | x :: xs => xs.foldl max x

/-- `snapshot_date`: day after the last transaction. -/
def snapshot_date (rows : List CleanedRow) : ℤ :=
  listMaxD (rows.map (·.invoiceDate)) + 1

/-- The aggregated record of one customer group:
`Recency=(snapshot - x.max()).days`, `Frequency = nunique InvoiceNo`,
`Monetary = sum TotalPrice`. -/
def rfmOf (rows : List CleanedRow) (snapshot : ℤ) (c : ℤ) : RFMRow :=
  let g := rows.filter (fun r => decide (r.customerID = c))
  { customerID := c
    recency := snapshot - listMaxD (g.map (·.invoiceDate))
    frequency := ((g.map (·.invoiceNo)).dedup).length
    monetary := (g.map (·.totalPrice)).sum }

/-- `build_rfm`: snapshot date, group by customer, aggregate, then the guards.
`replace([inf,-inf], nan).dropna()` is the identity in exact arithmetic (no
aggregated rational is infinite or NaN), so only the sanity filter remains. -/
def build_rfm (rows : List CleanedRow) : List RFMRow :=
  let snapshot := snapshot_date rows
  let customers := (rows.map (·.customerID)).dedup
  let rfm := customers.map (rfmOf rows snapshot)
  rfm.filter (fun r => decide (0 < r.frequency ∧ 0 < r.monetary ∧ 0 ≤ r.recency))

/-! ### Helper lemmas -/

unseal Rat.mul Rat.add Rat.sub

set_option maxRecDepth 10000

theorem le_foldl_max (l : List ℤ) : ∀ d : ℤ, d ≤ l.foldl max d := by
  induction l with
  | nil => intro d; exact le_refl d
  | cons x xs ih =>
    intro d
    exact le_trans (le_max_left d x) (ih (max d x))

theorem mem_le_foldl_max (l : List ℤ) : ∀ d a : ℤ, a ∈ l → a ≤ l.foldl max d := by
  induction l with
  | nil => intro d a h; cases h
  | cons x xs ih =>
    intro d a h
    rcases List.mem_cons.mp h with h | h
    · subst h
      exact le_trans (le_max_right d a) (le_foldl_max xs (max d a))
    · exact ih (max d x) a h

theorem foldl_max_mem (l : List ℤ) : ∀ d : ℤ, l.foldl max d = d ∨ l.foldl max d ∈ l := by
  induction l with
  | nil => intro d; exact Or.inl rfl
  | cons x xs ih =>
    intro d
    rcases ih (max d x) with h | h
    · rcases max_choice d x with hm | hm
      · exact Or.inl (by rw [List.foldl_cons, h, hm])
      · exact Or.inr (by rw [List.foldl_cons, h, hm]; exact List.mem_cons_self x xs)
    · exact Or.inr (List.mem_cons_of_mem x h)

theorem mem_le_listMaxD {a : ℤ} {l : List ℤ} (h : a ∈ l) : a ≤ listMaxD l := by
  cases l with
  | nil => cases h
  | cons x xs =>
    rcases List.mem_cons.mp h with h | h
    · subst h; exact le_foldl_max xs a
    · exact mem_le_foldl_max xs x a h

theorem listMaxD_mem {l : List ℤ} (h : l ≠ []) : listMaxD l ∈ l := by
  cases l with
  | nil => exact absurd rfl h
  | cons x xs =>
    rcases foldl_max_mem xs x with hm | hm
    · rw [listMaxD, hm]; exact List.mem_cons_self x xs
    · exact List.mem_cons_of_mem x hm

theorem mem_build_rfm {rows : List CleanedRow} {r : RFMRow} (h : r ∈ build_rfm rows) :
    (∃ c ∈ (rows.map (·.customerID)).dedup, r = rfmOf rows (snapshot_date rows) c) ∧
      0 < r.frequency ∧ 0 < r.monetary ∧ 0 ≤ r.recency := by
  unfold build_rfm at h
  have h' := List.mem_filter.mp h
  refine ⟨?_, of_decide_eq_true h'.2 |>.1, of_decide_eq_true h'.2 |>.2.1,
    of_decide_eq_true h'.2 |>.2.2⟩
  rcases List.mem_map.mp h'.1 with ⟨c, hc, hr⟩
  exact ⟨c, hc, hr.symm⟩

theorem cleanRow_some {cols : List String} {row : List Cell} {r : CleanedRow}
    (h : cleanRow cols row = some r) :
    py_startswith r.invoiceNo "C" = false ∧ 0 < r.quantity ∧ 0 < r.unitPrice ∧
      r.totalPrice = r.quantity * r.unitPrice := by
  unfold cleanRow at h
  split at h
  · cases h
  · split at h
    · cases h
    · split at h
      · cases h
      · split at h
        · split at h
          · split at h
            · cases h
              constructor
              · exact Bool.of_not_eq_true (by assumption)
              · refine ⟨?_, ?_, rfl⟩ <;> simp_all
            · cases h
          · cases h
        · cases h

theorem clean_transactions_eq_core (t : Table) :
    clean_transactions t = cleanCore (t.cols.map canonName) t.rows := by
  unfold clean_transactions clean_transactions_state
  simp only [List.map_map]
  rfl

theorem clean_ok_iff {t : Table} {rows : List CleanedRow}
    (h : clean_transactions t = Except.ok rows) :
    missingOf t = [] ∧ rows = t.rows.filterMap (cleanRow (t.cols.map canonName)) := by
  rw [clean_transactions_eq_core] at h
  unfold cleanCore at h
  split at h
  · rename_i hemp
    refine ⟨List.isEmpty_iff.mp hemp, ?_⟩
    cases h
    rfl
  · cases h

/-! ### Claim theorems -/

/-- C6: every RFM row returned by `build_rfm` satisfies Recency ≥ 0,
Frequency > 0 and Monetary > 0; rows violating a bound are dropped by the
sanity filter, never raised as errors (`build_rfm` is a total function into a
list), and in the exact-arithmetic model no value is infinite or missing. -/
theorem c6_rfm_bounds (rows : List CleanedRow) (r : RFMRow) (h : r ∈ build_rfm rows) :
    0 ≤ r.recency ∧ 0 < r.frequency ∧ 0 < r.monetary := by
  obtain ⟨-, hf, hm, hr⟩ := mem_build_rfm h
  exact ⟨hr, hf, hm⟩

def exRowsC6 : List CleanedRow := [⟨"A", 5, 3, 2, 2, 4⟩]

theorem c6_witness :
    (⟨3, 1, 1, 4⟩ : RFMRow) ∈ build_rfm exRowsC6 ∧
      (0 ≤ (1 : ℤ) ∧ 0 < (1 : ℕ) ∧ 0 < (4 : ℚ)) :=
  ⟨by decide, c6_rfm_bounds exRowsC6 ⟨3, 1, 1, 4⟩ (by decide)⟩

/-- C8: cleaning never adds rows (the cleaned table is a `filterMap` of the raw
rows) and aggregation produces at most one row per distinct customer identifier
of the cleaned table. -/
theorem c8_row_monotone (t : Table) (rows : List CleanedRow)
    (h : clean_transactions t = Except.ok rows) :
    rows.length ≤ t.rows.length ∧
      (build_rfm rows).length ≤ ((rows.map (·.customerID)).dedup).length := by
  obtain ⟨-, hrows⟩ := clean_ok_iff h
  constructor
  · rw [hrows]
    exact List.length_filterMap_le _ _
  · unfold build_rfm
    exact le_trans (List.length_filter_le _ _) (le_of_eq (List.length_map _ _))

def exTC8 : Table :=
  ⟨["InvoiceNo", "InvoiceDate", "CustomerID", "Quantity", "UnitPrice"],
   [[Cell.str "A", Cell.date 3, Cell.num 9, Cell.num 1, Cell.num 2],
    [Cell.str "C9", Cell.date 3, Cell.num 9, Cell.num 1, Cell.num 2]]⟩

def exRowsC8 : List CleanedRow := [⟨"A", 3, 9, 1, 2, 2⟩]

theorem c8_witness :
    clean_transactions exTC8 = Except.ok exRowsC8 ∧
      (exRowsC8.length ≤ exTC8.rows.length ∧
        (build_rfm exRowsC8).length ≤ ((exRowsC8.map (·.customerID)).dedup).length) :=
  ⟨by decide, c8_row_monotone exTC8 exRowsC8 (by decide)⟩

/-- C2: for every produced RFM row, Recency is the whole-day difference between
the snapshot (the maximum invoice date over the whole cleaned table plus one
day) and the customer's own maximum invoice date; Recency is never negative,
and the customer holding the most recent transaction gets Recency 1, not 0. -/
theorem c2_recency (rows : List CleanedRow) (r : RFMRow) (h : r ∈ build_rfm rows) :
    snapshot_date rows = listMaxD (rows.map (·.invoiceDate)) + 1 ∧
    r.recency = snapshot_date rows -
      listMaxD ((rows.filter (fun x => decide (x.customerID = r.customerID))).map
        (·.invoiceDate)) ∧
    0 ≤ r.recency ∧
    (listMaxD ((rows.filter (fun x => decide (x.customerID = r.customerID))).map
        (·.invoiceDate)) = listMaxD (rows.map (·.invoiceDate)) → r.recency = 1) := by
  obtain ⟨⟨c, hc, hr⟩, -⟩ := mem_build_rfm h
  subst hr
  simp only [rfmOf]
  obtain ⟨x, hx, hxc⟩ := List.mem_map.mp (List.mem_dedup.mp hc)
  have hxf : x ∈ rows.filter (fun x => decide (x.customerID = c)) :=
    List.mem_filter.mpr ⟨hx, by simp [hxc]⟩
  have hne : (rows.filter (fun x => decide (x.customerID = c))).map (·.invoiceDate) ≠ [] :=
    List.ne_nil_of_mem (List.mem_map_of_mem _ hxf)
  obtain ⟨y, hyf, hyd⟩ := List.mem_map.mp (listMaxD_mem hne)
  have hymem : y.invoiceDate ∈ rows.map (·.invoiceDate) :=
    List.mem_map_of_mem _ (List.mem_filter.mp hyf).1
  have hle : listMaxD ((rows.filter (fun x => decide (x.customerID = c))).map (·.invoiceDate)) ≤
      listMaxD (rows.map (·.invoiceDate)) := by
    rw [← hyd]
    exact mem_le_listMaxD hymem
  have hsnap : snapshot_date rows = listMaxD (rows.map (·.invoiceDate)) + 1 := rfl
  refine ⟨hsnap, by trivial, ?_, ?_⟩
  · rw [hsnap]
    omega
  · intro heq
    rw [hsnap, heq]
    omega

def exRowsC2 : List CleanedRow := [⟨"A", 10, 1, 1, 1, 1⟩, ⟨"B", 12, 2, 1, 1, 1⟩]

theorem c2_witness :
    (⟨2, 1, 1, 1⟩ : RFMRow) ∈ build_rfm exRowsC2 ∧
      listMaxD ((exRowsC2.filter (fun x => decide (x.customerID = (2 : ℤ)))).map
        (·.invoiceDate)) = listMaxD (exRowsC2.map (·.invoiceDate)) ∧
      (⟨2, 1, 1, 1⟩ : RFMRow).recency = 1 :=
  ⟨by decide, by decide,
    (c2_recency exRowsC2 ⟨2, 1, 1, 1⟩ (by decide)).2.2.2 (by decide)⟩

/-- C3: every produced Frequency is the number of distinct invoice identifiers
of that customer's rows, not the number of rows. -/
theorem c3_frequency (rows : List CleanedRow) (r : RFMRow) (h : r ∈ build_rfm rows) :
    r.frequency = ((rows.filter (fun x => decide (x.customerID = r.customerID))).map
      (·.invoiceNo)).toFinset.card := by
  obtain ⟨⟨c, hc, hr⟩, -⟩ := mem_build_rfm h
  subst hr
  simp only [rfmOf, List.card_toFinset]

def exRowsC3 : List CleanedRow :=
  [⟨"A", 0, 1, 1, 1, 1⟩, ⟨"A", 1, 1, 1, 1, 1⟩, ⟨"B", 1, 1, 1, 1, 1⟩]

theorem c3_witness :
    (⟨1, 1, 2, 3⟩ : RFMRow) ∈ build_rfm exRowsC3 ∧
      ((exRowsC3.filter (fun x => decide (x.customerID = (1 : ℤ)))).map
        (·.invoiceNo)).toFinset.card = 2 ∧
      (⟨1, 1, 2, 3⟩ : RFMRow).frequency = 2 :=
  ⟨by decide, by decide,
    (c3_frequency exRowsC3 ⟨1, 1, 2, 3⟩ (by decide)).trans (by decide)⟩

/-- C1 (counterexample to the claim as stated): `clean_transactions` accepts a
table whose single row carries the empty string as invoice identifier, and the
row survives cleaning with an empty invoice identifier — the code never
enforces the "non-empty text" part of the claimed invariant (`astype(str)`
keeps an empty string, and the cancellation filter does not drop it). -/
theorem c1_counterexample :
    clean_transactions
        ⟨["InvoiceNo", "InvoiceDate", "CustomerID", "Quantity", "UnitPrice"],
         [[Cell.str "", Cell.date 5, Cell.num 7, Cell.num 1, Cell.num 2]]⟩ =
      Except.ok [⟨"", 5, 7, 1, 2, 2⟩] ∧
    (⟨"", 5, 7, 1, 2, 2⟩ : CleanedRow).invoiceNo = "" :=
  ⟨by decide, rfl⟩

/-- C1 (amended): every row of a cleaned table has its customer identifier
present and coerced to an integer and its invoice date a parsed date (both by
construction of `CleanedRow`), an invoice identifier that does not start with
`'C'` (but possibly empty: the code never enforces non-emptiness), strictly
positive quantity and unit price, and total price equal to quantity times unit
price, hence positive; violating rows are excluded by `cleanRow`, never
repaired. -/
theorem c1_clean_invariant (t : Table) (rows : List CleanedRow) (r : CleanedRow)
    (hok : clean_transactions t = Except.ok rows) (hr : r ∈ rows) :
    py_startswith r.invoiceNo "C" = false ∧ 0 < r.quantity ∧ 0 < r.unitPrice ∧
      r.totalPrice = r.quantity * r.unitPrice ∧ 0 < r.totalPrice := by
  obtain ⟨-, hrows⟩ := clean_ok_iff hok
  rw [hrows] at hr
  obtain ⟨a, ha, hsome⟩ := List.mem_filterMap.mp hr
  obtain ⟨hC, hq, hp, htot⟩ := cleanRow_some hsome
  exact ⟨hC, hq, hp, htot, htot ▸ mul_pos hq hp⟩

def exTC1 : Table :=
  ⟨["InvoiceNo", "InvoiceDate", "CustomerID", "Quantity", "UnitPrice"],
   [[Cell.str "A", Cell.date 5, Cell.num 7, Cell.num 1, Cell.num 2]]⟩

theorem c1_witness :
    clean_transactions exTC1 = Except.ok [⟨"A", 5, 7, 1, 2, 2⟩] ∧
      (py_startswith "A" "C" = false ∧ (0 : ℚ) < 1 ∧ (0 : ℚ) < 2 ∧
        (2 : ℚ) = 1 * 2 ∧ (0 : ℚ) < 2) :=
  ⟨by decide,
    c1_clean_invariant exTC1 [⟨"A", 5, 7, 1, 2, 2⟩] ⟨"A", 5, 7, 1, 2, 2⟩
      (by decide) (by decide)⟩

/-- C4: for every cleaned table produced by `clean_transactions`, the Monetary
of every produced RFM row is the sum over the customer's rows of quantity times
unit price (the derived total price). -/
theorem c4_monetary (t : Table) (rows : List CleanedRow) (r : RFMRow)
    (hok : clean_transactions t = Except.ok rows) (h : r ∈ build_rfm rows) :
    r.monetary = ((rows.filter (fun x => decide (x.customerID = r.customerID))).map
      (fun x => x.quantity * x.unitPrice)).sum := by
  obtain ⟨⟨c, hc, hr⟩, -⟩ := mem_build_rfm h
  subst hr
  simp only [rfmOf]
  refine congrArg List.sum (List.map_congr_left ?_)
  intro x hx
  have hxr : x ∈ rows := (List.mem_filter.mp hx).1
  obtain ⟨-, hrows⟩ := clean_ok_iff hok
  rw [hrows] at hxr
  obtain ⟨a, ha, hsome⟩ := List.mem_filterMap.mp hxr
  exact (cleanRow_some hsome).2.2.2

def exTC4 : Table :=
  ⟨["InvoiceNo", "InvoiceDate", "CustomerID", "Quantity", "UnitPrice"],
   [[Cell.str "A", Cell.date 1, Cell.num 7, Cell.num 2, Cell.num 3],
    [Cell.str "B", Cell.date 2, Cell.num 7, Cell.num 1, Cell.num 5]]⟩

def exRowsC4 : List CleanedRow := [⟨"A", 1, 7, 2, 3, 6⟩, ⟨"B", 2, 7, 1, 5, 5⟩]

theorem c4_witness :
    clean_transactions exTC4 = Except.ok exRowsC4 ∧
      (⟨7, 1, 2, 11⟩ : RFMRow) ∈ build_rfm exRowsC4 ∧
      (⟨7, 1, 2, 11⟩ : RFMRow).monetary = 11 ∧
      ((exRowsC4.filter (fun x => decide (x.customerID = (7 : ℤ)))).map
        (fun x => x.quantity * x.unitPrice)).sum = 11 :=
  ⟨by decide, by decide, by decide,
    (c4_monetary exTC4 exRowsC4 ⟨7, 1, 2, 11⟩ (by decide) (by decide)).symm.trans
      (by decide)⟩

/-- C5: cleaning fails if and only if some required canonical column is still
missing after normalization; the failure carries both the missing columns and
the (normalized) columns that were found, and happens before any row is
processed (the error branch never looks at the rows). -/
theorem c5_schema_check (t : Table) :
    ((clean_transactions t).isOk = true ↔ missingOf t = []) ∧
    (missingOf t ≠ [] →
      clean_transactions t = Except.error ⟨missingOf t, t.cols.map canonName⟩) := by
  rw [clean_transactions_eq_core]
  unfold cleanCore missingOf
  split
  · rename_i hemp
    have hM := List.isEmpty_iff.mp hemp
    exact ⟨⟨fun _ => hM, fun _ => rfl⟩, fun hne => absurd hM hne⟩
  · rename_i hemp
    have hM : required_cols.filter (fun c => !(t.cols.map canonName).contains c) ≠ [] := by
      intro hnil
      rw [hnil] at hemp
      exact hemp rfl
    refine ⟨⟨fun hok => ?_, fun hnil => absurd hnil hM⟩, fun _ => rfl⟩
    cases hok

def exTC5 : Table :=
  ⟨["InvoiceDate", "CustomerID", "Quantity", "UnitPrice"], [[Cell.null]]⟩

theorem c5_witness :
    missingOf exTC5 ≠ [] ∧
      clean_transactions exTC5 = Except.error ⟨missingOf exTC5, exTC5.cols.map canonName⟩ ∧
      missingOf exTC5 = ["InvoiceNo"] :=
  ⟨by decide, (c5_schema_check exTC5).2 (by decide), by decide⟩

/-- C7: two tables that differ only in which supported synonym (including
surrounding whitespace) names each column produce identical cleaned tables. -/
theorem c7_synonym_equiv (t t' : Table)
    (hcols : t.cols.map canonName = t'.cols.map canonName)
    (hrows : t.rows = t'.rows) :
    clean_transactions t = clean_transactions t' := by
  rw [clean_transactions_eq_core, clean_transactions_eq_core, hcols, hrows]

def exTC7a : Table :=
  ⟨[" Invoice ", "InvoiceDate", "Customer ID", "Quantity", "Price"],
   [[Cell.str "A", Cell.date 1, Cell.num 7, Cell.num 2, Cell.num 3]]⟩

def exTC7b : Table :=
  ⟨["InvoiceNo", "InvoiceDate", "CustomerID", "Quantity", "UnitPrice"],
   [[Cell.str "A", Cell.date 1, Cell.num 7, Cell.num 2, Cell.num 3]]⟩

theorem c7_witness :
    exTC7a.cols.map canonName = exTC7b.cols.map canonName ∧
      exTC7a.rows = exTC7b.rows ∧
      clean_transactions exTC7a = clean_transactions exTC7b :=
  ⟨by decide, rfl, c7_synonym_equiv exTC7a exTC7b (by decide) rfl⟩

/-- C9 (counterexample to the claim as stated): the first statement of
`clean_transactions` assigns stripped column names to the argument's `columns`
attribute, mutating the caller's table in place — a table whose column names
carry surrounding whitespace is changed by the call. -/
theorem c9_counterexample :
    (clean_transactions_state
        ⟨[" Invoice ", "InvoiceDate", "CustomerID", "Quantity", "UnitPrice"], []⟩).2 ≠
      ⟨[" Invoice ", "InvoiceDate", "CustomerID", "Quantity", "UnitPrice"], []⟩ ∧
    (clean_transactions_state
        ⟨[" Invoice ", "InvoiceDate", "CustomerID", "Quantity", "UnitPrice"], []⟩).2.cols =
      ["Invoice", "InvoiceDate", "CustomerID", "Quantity", "UnitPrice"] :=
  ⟨by decide, by decide⟩

/-- C9 (amended): the only in-place effect of `clean_transactions` on its input
is stripping whitespace from the column names; the rows and cell values are
never mutated, and a table whose column names carry no surrounding whitespace
is left unchanged. -/
theorem c9_column_mutation_frame (t : Table) :
    (clean_transactions_state t).2.rows = t.rows ∧
    (clean_transactions_state t).2.cols = t.cols.map py_strip ∧
    ((∀ c ∈ t.cols, py_strip c = c) → (clean_transactions_state t).2 = t) := by
  refine ⟨rfl, rfl, fun hid => ?_⟩
  cases t with
  | mk cols rows =>
    have hcols : cols.map py_strip = cols :=
      (List.map_congr_left hid).trans (List.map_id cols)
    show (⟨cols.map py_strip, rows⟩ : Table) = ⟨cols, rows⟩
    rw [hcols]

def exTC9 : Table :=
  ⟨["InvoiceNo", "InvoiceDate", "CustomerID", "Quantity", "UnitPrice"],
   [[Cell.str "A", Cell.date 5, Cell.num 7, Cell.num 1, Cell.num 2]]⟩

theorem c9_witness :
    (∀ c ∈ exTC9.cols, py_strip c = c) ∧ (clean_transactions_state exTC9).2 = exTC9 :=
  ⟨by decide, (c9_column_mutation_frame exTC9).2.2 (by decide)⟩

theorem py_startswith_lower_c {s : String} (h : py_startswith s "c" = true) :
    py_startswith s "C" = false := by
  unfold py_startswith at h ⊢
  have hc : "c".data = ['c'] := rfl
  have hC : "C".data = ['C'] := rfl
  rw [hc] at h
  rw [hC]
  cases hs : s.data with
  | nil => rw [hs] at h; simp [List.isPrefixOf] at h
  | cons x xs =>
    rw [hs] at h
    simp only [List.isPrefixOf, Bool.and_eq_true, beq_iff_eq] at h
    obtain ⟨hx, -⟩ := h
    subst hx
    simp [List.isPrefixOf]

/-- C10: the cancellation filter is case-sensitive.  A row of an accepted table
whose invoice identifier (as text) begins with the lowercase letter `'c'` and
passes the other filters (numeric customer id, parseable date, positive
quantity and unit price) is not treated as a cancellation: it survives
`clean_transactions`.  Only identifiers beginning with the uppercase `'C'` hit
the filter. -/
theorem c10_lowercase_cancellation (t : Table) (row : List Cell) (s : String)
    (d : ℤ) (qc q p : ℚ)
    (hrow : row ∈ t.rows)
    (hmiss : missingOf t = [])
    (hcid : getCell (t.cols.map canonName) "CustomerID" row = Cell.num qc)
    (hdate : parseDateCell (getCell (t.cols.map canonName) "InvoiceDate" row) = some d)
    (hinv : cellToString (getCell (t.cols.map canonName) "InvoiceNo" row) = s)
    (hc : py_startswith s "c" = true)
    (hq : cellNum (getCell (t.cols.map canonName) "Quantity" row) = some q)
    (hq0 : 0 < q)
    (hp : cellNum (getCell (t.cols.map canonName) "UnitPrice" row) = some p)
    (hp0 : 0 < p) :
    py_startswith s "C" = false ∧
      ∃ rows, clean_transactions t = Except.ok rows ∧
        (⟨s, d, ratTrunc qc, q, p, q * p⟩ : CleanedRow) ∈ rows := by
  have hC := py_startswith_lower_c hc
  have hsome : cleanRow (t.cols.map canonName) row =
      some ⟨s, d, ratTrunc qc, q, p, q * p⟩ := by
    unfold cleanRow
    rw [hcid, hdate, hinv, hq, hp]
    simp [hC, hq0, hp0, cellToInt]
  refine ⟨hC, t.rows.filterMap (cleanRow (t.cols.map canonName)), ?_, ?_⟩
  · rw [clean_transactions_eq_core]
    unfold cleanCore
    unfold missingOf at hmiss
    rw [hmiss]
    rfl
  · exact List.mem_filterMap.mpr ⟨row, hrow, hsome⟩

def exTC10 : Table :=
  ⟨["InvoiceNo", "InvoiceDate", "CustomerID", "Quantity", "UnitPrice"],
   [[Cell.str "c1", Cell.date 4, Cell.num 3, Cell.num 2, Cell.num 5]]⟩

theorem c10_witness :
    py_startswith "c1" "C" = false ∧
      ∃ rows, clean_transactions exTC10 = Except.ok rows ∧
        (⟨"c1", 4, ratTrunc 3, 2, 5, 2 * 5⟩ : CleanedRow) ∈ rows :=
  c10_lowercase_cancellation exTC10
    [Cell.str "c1", Cell.date 4, Cell.num 3, Cell.num 2, Cell.num 5]
    "c1" 4 3 2 5 (by decide) (by decide) (by decide) (by decide) (by decide)
    (by decide) (by decide) (by decide) (by decide) (by decide)
